import Mathlib

/-!
Verification development for the PJAS storage node (`src/PJASNode.py`).

The node's on-disk state is embedded shallowly:
* the chunk subdirectory (`chunks_dir`) is a finite association list from
  file name to file contents (a list of bytes);
* the metadata file (`node_metadata.json`) is the `NodeMetadata` structure;
* SHA-256 (`hashlib.sha256(...).hexdigest()`) is an explicit function
  parameter `hash : Bytes → String`, since the claims depend only on the
  digest comparisons the code performs, not on the concrete compression
  function;
* `time.time()` is an explicit `now` parameter.

The methods `get_storage_stats`, `store_chunk`, `retrieve_chunk`,
`load_metadata` of class `PJASNode` are translated line by line into pure
state-passing functions below.
-/

namespace PJAS

/-- A file's contents: a list of bytes (each `< 256`; byte-ness is not
needed by any claim, so plain `Nat` entries are used). -/
abbrev Bytes := List Nat

/-- An association list keyed by `String`, modelling both a directory
listing (file name ↦ contents) and a JSON object (key ↦ value). -/
abbrev AssocL (α : Type) := List (String × α)

/-- First-match lookup in an association list (Python `dict` lookup /
checking for a file of a given name). -/
def getAssoc {α : Type} : AssocL α → String → Option α
  | [], _ => none
  | (k', v) :: rest, k => if k' = k then some v else getAssoc rest k

/-- Replace the binding of key `k` in place when present, otherwise append
it at the end — Python `d[k] = v` on a `dict`, and likewise writing file
`k` into a directory. -/
def setAssoc {α : Type} : AssocL α → String → α → AssocL α
  | [], k, v => [(k, v)]
  | (k', v') :: rest, k, v =>
    if k' = k then (k, v) :: rest else (k', v') :: setAssoc rest k v

/-- Python `name.endswith(suffix)`, as a suffix test on the character
lists underlying the strings. -/
def strEndsWith (s suffix : String) : Bool :=
  suffix.data.isSuffixOf s.data

/-- One entry of `NodeMetadata.chunks`, as written by `store_chunk`
(src/PJASNode.py lines 78-83): `file_id` comes from
`file_metadata.get("file_id")` (hence may be absent), `size` is the
payload byte length, `created` the store-time timestamp, `checksum` the
hex digest of the payload. -/
structure ChunkRecord where
  file_id : Option String
  size : Nat
  created : Nat
  checksum : String
deriving DecidableEq, Repr

/-- The `node_metadata.json` structure (src/PJASNode.py lines 32-36). -/
structure NodeMetadata where
  node_id : String
  chunks : AssocL ChunkRecord
  total_stored : Nat
deriving DecidableEq, Repr

/-- The node's mutable state: the contents of the chunk subdirectory,
the in-memory/persisted metadata (kept in sync by `save_metadata` on
every mutation, so one field suffices), and `allocated_bytes`
(`allocated_gb * 1024**3`, src/PJASNode.py line 17). -/
structure NodeState where
  files : AssocL Bytes
  metadata : NodeMetadata
  allocated_bytes : Nat
deriving DecidableEq, Repr

/-- The dictionary returned by `get_storage_stats`
(src/PJASNode.py lines 57-63).  `free_bytes` is an integer — Python's
subtraction does not clamp at zero — and `usage_percent` is the exact
rational value of `(total_size / allocated_bytes) * 100`. -/
structure StorageStats where
  used_bytes : Nat
  allocated_bytes : Nat
  free_bytes : Int
  chunk_count : Nat
  usage_percent : ℚ
deriving DecidableEq, Repr

/-- The accumulation loop of `get_storage_stats`
(src/PJASNode.py lines 51-55): walk the directory listing, and for each
name ending in `.chunk` add the file's size to `total_size` and bump
`chunk_count`. -/
def statsLoop : AssocL Bytes → Nat × Nat → Nat × Nat
  | [], acc => acc
  | (name, data) :: rest, (total_size, chunk_count) =>
    if strEndsWith name ".chunk" then
      statsLoop rest (total_size + data.length, chunk_count + 1)
    else
      statsLoop rest (total_size, chunk_count)

/-- `PJASNode.get_storage_stats` (src/PJASNode.py lines 46-63), under the
constructor-established precondition that the chunk subdirectory exists
(`os.makedirs(self.chunks_dir, exist_ok=True)`, line 23). -/
def get_storage_stats (s : NodeState) : StorageStats :=
  let (total_size, chunk_count) := statsLoop s.files (0, 0)
  { used_bytes := total_size
    allocated_bytes := s.allocated_bytes
    free_bytes := (s.allocated_bytes : Int) - (total_size : Int)
    chunk_count := chunk_count
    usage_percent := ((total_size : ℚ) / (s.allocated_bytes : ℚ)) * 100 }

/-- `PJASNode.get_storage_stats` at the raw filesystem level, where the
chunk subdirectory may be missing: `os.listdir` on a nonexistent
directory raises `FileNotFoundError`, which the method does not catch
(src/PJASNode.py line 51). -/
def get_storage_stats_fs (dir : Option (AssocL Bytes)) (allocated : Nat) :
    Except String StorageStats :=
  match dir with
  | none => Except.error ("FileNotFoundError")
  | some files =>
    Except.ok (get_storage_stats { files := files,
                                   metadata := ⟨"", [], 0⟩,
                                   allocated_bytes := allocated })

/-- Result dictionary of `store_chunk`: `{"success": True, "stored_bytes": n}`
or `{"success": False, "error": e}`. -/
inductive StoreResult where
  | ok (stored_bytes : Nat)
  | err (error : String)
deriving DecidableEq, Repr

/-- Result dictionary of `retrieve_chunk`: `{"success": True, "data": d}`
or `{"success": False, "error": e}`. -/
inductive RetrieveResult where
  | ok (data : Bytes)
  | err (error : String)
deriving DecidableEq, Repr

/-- The `file_metadata` argument of `store_chunk`; only its `file_id`
entry is read (`file_metadata.get("file_id")`, src/PJASNode.py line 79). -/
structure FileMetadata where
  file_id : Option String
deriving DecidableEq, Repr

/-- `PJASNode.store_chunk` (src/PJASNode.py lines 65-89): admission check
against `free_bytes`, write `<chunk_id>.chunk`, insert the `ChunkRecord`
(size, created, checksum), persist metadata.  In this deterministic
embedding of the filesystem the `try` body cannot fail, so the
`except`-branch result is unreachable. -/
def store_chunk (hash : Bytes → String) (now : Nat) (s : NodeState)
    (chunk_id : String) (chunk_data : Bytes) (file_metadata : FileMetadata) :
    NodeState × StoreResult :=
  let stats := get_storage_stats s
  if (chunk_data.length : Int) > stats.free_bytes then
    (s, StoreResult.err ("Not enough free space"))
  else
    let chunk_path := chunk_id ++ ".chunk"
    let files' := setAssoc s.files chunk_path chunk_data
    let record : ChunkRecord :=
      { file_id := file_metadata.file_id
        size := chunk_data.length
        created := now
        checksum := hash chunk_data }
    let metadata' := { s.metadata with
                        chunks := setAssoc s.metadata.chunks chunk_id record }
    ({ s with files := files', metadata := metadata' },
     StoreResult.ok chunk_data.length)

/-- `PJASNode.retrieve_chunk` (src/PJASNode.py lines 91-113): fail with
"Chunk not found" when no `<chunk_id>.chunk` file exists; otherwise read
the bytes, and when a metadata record exists compare its checksum with
the recomputed digest, failing with "Chunk corrupted" on mismatch. -/
def retrieve_chunk (hash : Bytes → String) (s : NodeState)
    (chunk_id : String) : RetrieveResult :=
  let chunk_path := chunk_id ++ ".chunk"
  match getAssoc s.files chunk_path with
  | none => RetrieveResult.err ("Chunk not found")
  | some chunk_data =>
    match getAssoc s.metadata.chunks chunk_id with
    | some record =>
      if record.checksum ≠ hash chunk_data then
        RetrieveResult.err ("Chunk corrupted")
      else
        RetrieveResult.ok chunk_data
    | none => RetrieveResult.ok chunk_data

/-- `PJASNode.load_metadata` together with the `save_metadata` call it
makes (src/PJASNode.py lines 26-38): given the current contents of the
metadata file (`none` when the file does not exist), return the new file
contents and the structure handed back to the caller. -/
def load_metadata (node_id : String) (mfile : Option NodeMetadata) :
    Option NodeMetadata × NodeMetadata :=
  match mfile with
  | some metadata => (some metadata, metadata)
  | none =>
    let metadata : NodeMetadata := { node_id := node_id, chunks := [], total_stored := 0 }
    (some metadata, metadata)

/-- The state of a freshly initialized node (`PJASNode.__init__` on an
empty storage directory, src/PJASNode.py lines 14-24): empty chunk
subdirectory, metadata created by `load_metadata`,
`allocated_bytes = allocated_gb * 1024**3`. -/
def freshNode (node_id : String) (allocated_gb : Nat) : NodeState :=
  { files := []
    metadata := (load_metadata node_id none).2
    allocated_bytes := allocated_gb * 1024 * 1024 * 1024 }

/-- Overwrite the on-disk bytes of file `name` without touching the
metadata — external corruption of a chunk file. -/
def alterFile (s : NodeState) (name : String) (data' : Bytes) : NodeState :=
  { s with files := setAssoc s.files name data' }

/-- States reachable from a freshly initialized node by `store_chunk`
calls (`retrieve_chunk` does not modify the state, so it contributes no
step). -/
inductive Reach (hash : Bytes → String) : NodeState → Prop where
  | init (node_id : String) (allocated_gb : Nat) :
      Reach hash (freshNode node_id allocated_gb)
  | store (s : NodeState) (now : Nat) (chunk_id : String) (chunk_data : Bytes)
      (fm : FileMetadata) :
      Reach hash s →
      Reach hash (store_chunk hash now s chunk_id chunk_data fm).1

/-- The metadata/disk coherence invariant of `NodeMetadata.chunks`: every
recorded chunk has an on-disk file of the recorded size and checksum. -/
def ChunkInvariant (hash : Bytes → String) (s : NodeState) : Prop :=
  ∀ chunk_id record, getAssoc s.metadata.chunks chunk_id = some record →
    ∃ data, getAssoc s.files (chunk_id ++ ".chunk") = some data ∧
      data.length = record.size ∧ hash data = record.checksum

/-- The `GET /chunk` branch of `NodeRequestHandler.do_GET`
(src/PJASNode.py lines 202-217), from the point where
`query.get('id', [None])[0]` has produced an optional identifier.
`parse_qs` drops blank values, so `?id=` yields `none` already at the
parse step; independently, Python's `if not chunk_id:` treats the empty
string as falsy.  The response is either `send_error code reason` or a
200 with the chunk bytes. -/
inductive HttpOutcome where
  | sendError (code : Nat) (reason : String)
  | okBytes (data : Bytes)
deriving DecidableEq, Repr

/-- Python truthiness of `chunk_id` in `if not chunk_id:`
(src/PJASNode.py line 204): `None` and the empty string are falsy. -/
def pyFalsyId : Option String → Bool
  | none => true
  | some s => s.isEmpty

/-- The `path == '/chunk'` branch of `do_GET`
(src/PJASNode.py lines 202-217). -/
def handleChunkGet (hash : Bytes → String) (s : NodeState)
    (chunk_id : Option String) : HttpOutcome :=
  if pyFalsyId chunk_id then
    HttpOutcome.sendError 400 ("Missing chunk ID")
  else
    match chunk_id with
    | none => HttpOutcome.sendError 400 ("Missing chunk ID")
    | some cid =>
      match retrieve_chunk hash s cid with
      | RetrieveResult.ok data => HttpOutcome.okBytes data
      | RetrieveResult.err e => HttpOutcome.sendError 404 e

/-! ### Association-list lemmas -/

theorem getAssoc_setAssoc_self {α : Type} (l : AssocL α) (k : String) (v : α) :
    getAssoc (setAssoc l k v) k = some v := by
  induction l with
  | nil => simp [setAssoc, getAssoc]
  | cons p rest ih =>
    obtain ⟨k', v'⟩ := p
    by_cases h : k' = k
    · simp [setAssoc, h, getAssoc]
    · simp [setAssoc, h, getAssoc, ih]

theorem getAssoc_setAssoc_ne {α : Type} (l : AssocL α) {k k' : String} (v : α)
    (h : k' ≠ k) : getAssoc (setAssoc l k' v) k = getAssoc l k := by
  induction l with
  | nil => simp [setAssoc, getAssoc, h]
  | cons p rest ih =>
    obtain ⟨k₀, v₀⟩ := p
    by_cases h₀ : k₀ = k'
    · simp [setAssoc, h₀, getAssoc, h]
    · simp only [setAssoc, h₀, if_false, getAssoc]
      by_cases h₁ : k₀ = k
      · simp [h₁]
      · simp [h₁, ih]

theorem setAssoc_eq_append {α : Type} (l : AssocL α) (k : String) (v : α)
    (h : getAssoc l k = none) : setAssoc l k v = l ++ [(k, v)] := by
  induction l with
  | nil => simp [setAssoc]
  | cons p rest ih =>
    obtain ⟨k', v'⟩ := p
    simp only [getAssoc] at h
    by_cases h₀ : k' = k
    · simp [h₀] at h
    · simp only [h₀, if_false] at h
      simp [setAssoc, h₀, ih h]

theorem getAssoc_append_of_none {α : Type} (a b : AssocL α) (k : String)
    (h : getAssoc a k = none) : getAssoc (a ++ b) k = getAssoc b k := by
  induction a with
  | nil => simp
  | cons p rest ih =>
    obtain ⟨k', v'⟩ := p
    simp only [getAssoc] at h
    by_cases h₀ : k' = k
    · simp [h₀] at h
    · simp only [h₀, if_false] at h
      simp [getAssoc, h₀, ih h]

/-! ### Chunk file names -/

/-- Writing file `<cid>.chunk` produces a name the stats filter accepts. -/
theorem strEndsWith_chunkName (cid : String) :
    strEndsWith (cid ++ ".chunk") ".chunk" = true := by
  simp [strEndsWith, String.data_append, List.isSuffixOf]

/-- The map `cid ↦ cid ++ ".chunk"` is injective: distinct chunk ids
live in distinct files. -/
theorem chunkName_inj {a b : String} (h : a ++ ".chunk" = b ++ ".chunk") :
    a = b := by
  have hd : a.data ++ (".chunk" : String).data = b.data ++ (".chunk" : String).data := by
    rw [← String.data_append, ← String.data_append, h]
  exact String.ext (List.append_cancel_right hd)

/-! ### Specification-side reading of the capacity scan

The spec describes `used_bytes`/`chunk_count` as the sum of the byte
lengths, and the number, of the `.chunk` files in the chunk
subdirectory.  These definitions follow that wording (filter, then sum
or count) and are proved to agree with the accumulator loop
`statsLoop` that embeds the source. -/

def chunkFilesOf (files : AssocL Bytes) : AssocL Bytes :=
  files.filter (fun p => strEndsWith p.1 ".chunk")

def usedBytesOf (files : AssocL Bytes) : Nat :=
  ((chunkFilesOf files).map (fun p => p.2.length)).sum

def chunkCountOf (files : AssocL Bytes) : Nat :=
  (chunkFilesOf files).length

theorem statsLoop_eq (files : AssocL Bytes) (acc : Nat × Nat) :
    statsLoop files acc = (acc.1 + usedBytesOf files, acc.2 + chunkCountOf files) := by
  induction files generalizing acc with
  | nil => simp [statsLoop, usedBytesOf, chunkCountOf, chunkFilesOf]
  | cons p rest ih =>
    obtain ⟨name, data⟩ := p
    obtain ⟨t, c⟩ := acc
    by_cases h : strEndsWith name ".chunk" = true
    all_goals simp [statsLoop, h, ih, usedBytesOf, chunkCountOf, chunkFilesOf,
      List.filter_cons, Prod.ext_iff]
    all_goals try omega

/-- `get_storage_stats`, written the way the spec reads: the loop result
replaced by filter/sum/count. -/
theorem get_storage_stats_eq (s : NodeState) :
    get_storage_stats s =
      { used_bytes := usedBytesOf s.files
        allocated_bytes := s.allocated_bytes
        free_bytes := (s.allocated_bytes : Int) - (usedBytesOf s.files : Int)
        chunk_count := chunkCountOf s.files
        usage_percent := ((usedBytesOf s.files : ℚ) / (s.allocated_bytes : ℚ)) * 100 } := by
  simp [get_storage_stats, statsLoop_eq]

theorem usedBytesOf_append (a b : AssocL Bytes) :
    usedBytesOf (a ++ b) = usedBytesOf a + usedBytesOf b := by
  simp [usedBytesOf, chunkFilesOf, List.filter_append]

theorem chunkCountOf_append (a b : AssocL Bytes) :
    chunkCountOf (a ++ b) = chunkCountOf a + chunkCountOf b := by
  simp [chunkCountOf, chunkFilesOf, List.filter_append]

/-! ### Shape lemmas for `store_chunk` -/

/-- A store whose payload exceeds the free space is rejected with the
state untouched (the admission check precedes every write). -/
theorem store_chunk_of_too_big (hash : Bytes → String) (now : Nat) (s : NodeState)
    (cid : String) (data : Bytes) (fm : FileMetadata)
    (h : (data.length : Int) > (get_storage_stats s).free_bytes) :
    store_chunk hash now s cid data fm = (s, StoreResult.err ("Not enough free space")) := by
  simp only [store_chunk]
  rw [if_pos h]

/-- A store that passes the admission check writes the chunk file and
inserts the metadata record. -/
theorem store_chunk_of_fits (hash : Bytes → String) (now : Nat) (s : NodeState)
    (cid : String) (data : Bytes) (fm : FileMetadata)
    (h : ¬ (data.length : Int) > (get_storage_stats s).free_bytes) :
    store_chunk hash now s cid data fm =
      (⟨setAssoc s.files (cid ++ ".chunk") data,
        ⟨s.metadata.node_id,
         setAssoc s.metadata.chunks cid ⟨fm.file_id, data.length, now, hash data⟩,
         s.metadata.total_stored⟩,
        s.allocated_bytes⟩,
       StoreResult.ok data.length) := by
  simp only [store_chunk]
  rw [if_neg h]

/-! ### Claim theorems -/

/-- C1: after a successful `store_chunk(id, P, file_metadata)`,
`retrieve_chunk(id)` succeeds with data exactly `P`, and the digest
recomputed at retrieve time (`hash P`, over the bytes read back) equals
the checksum recorded in the metadata record at store time. -/
theorem store_retrieve_roundtrip (hash : Bytes → String) (now : Nat) (s : NodeState)
    (cid : String) (data : Bytes) (fm : FileMetadata) (s' : NodeState) (n : Nat)
    (h : store_chunk hash now s cid data fm = (s', StoreResult.ok n)) :
    retrieve_chunk hash s' cid = RetrieveResult.ok data ∧
    ∃ record, getAssoc s'.metadata.chunks cid = some record ∧
      hash data = record.checksum := by
  by_cases hc : (data.length : Int) > (get_storage_stats s).free_bytes
  · rw [store_chunk_of_too_big hash now s cid data fm hc] at h
    simp at h
  · rw [store_chunk_of_fits hash now s cid data fm hc] at h
    injection h with h1 h2
    subst h1
    refine ⟨?_, ⟨_, getAssoc_setAssoc_self _ _ _, rfl⟩⟩
    simp [retrieve_chunk, getAssoc_setAssoc_self]

/-- Witness for C1 at a concrete input: a two-byte payload stored on a
fresh 1 GB node. -/
theorem store_retrieve_roundtrip_witness :
    store_chunk (fun _ => ("h")) 0 (freshNode ("n") 1) ("a") [0, 1] ⟨none⟩ =
      (⟨[(("a.chunk"), [0, 1])],
        ⟨("n"), [(("a"), ⟨none, 2, 0, ("h")⟩)], 0⟩, 1073741824⟩,
       StoreResult.ok 2) ∧
    retrieve_chunk (fun _ => ("h"))
      ⟨[(("a.chunk"), [0, 1])], ⟨("n"), [(("a"), ⟨none, 2, 0, ("h")⟩)], 0⟩, 1073741824⟩
      ("a") = RetrieveResult.ok [0, 1] := by
  have h : store_chunk (fun _ => ("h")) 0 (freshNode ("n") 1) ("a") [0, 1] ⟨none⟩ =
      (⟨[(("a.chunk"), [0, 1])],
        ⟨("n"), [(("a"), ⟨none, 2, 0, ("h")⟩)], 0⟩, 1073741824⟩,
       StoreResult.ok 2) := by decide
  exact ⟨h, (store_retrieve_roundtrip _ _ _ _ _ _ _ _ h).1⟩

/-- C3: a payload strictly larger than the reported `free_bytes` is
rejected with "Not enough free space" and the state — hence the chunk
directory's file count and total bytes, and the metadata — is exactly
what it was before the call. -/
theorem store_chunk_insufficient_space (hash : Bytes → String) (now : Nat)
    (s : NodeState) (cid : String) (data : Bytes) (fm : FileMetadata)
    (h : (data.length : Int) > (get_storage_stats s).free_bytes) :
    store_chunk hash now s cid data fm = (s, StoreResult.err ("Not enough free space")) ∧
    get_storage_stats (store_chunk hash now s cid data fm).1 = get_storage_stats s := by
  refine ⟨store_chunk_of_too_big hash now s cid data fm h, ?_⟩
  rw [store_chunk_of_too_big hash now s cid data fm h]

/-- Witness for C3: a 3-byte payload against a node with 2 allocated
bytes. -/
theorem store_chunk_insufficient_space_witness :
    ((3 : Int) > (get_storage_stats ⟨[], ⟨("n"), [], 0⟩, 2⟩).free_bytes) ∧
    store_chunk (fun _ => ("h")) 0 ⟨[], ⟨("n"), [], 0⟩, 2⟩ ("a") [0, 0, 0] ⟨none⟩ =
      (⟨[], ⟨("n"), [], 0⟩, 2⟩, StoreResult.err ("Not enough free space")) := by
  have h : ((List.length [0, 0, 0] : Int) >
      (get_storage_stats (⟨[], ⟨("n"), [], 0⟩, 2⟩ : NodeState)).free_bytes) := by decide
  exact ⟨h, (store_chunk_insufficient_space (fun _ => ("h")) 0 _ ("a") [0, 0, 0] ⟨none⟩ h).1⟩

/-- C6: retrieving an identifier with no chunk file fails with
"Chunk not found" (a returned result, not a fault), and a successful
retrieve implies the chunk file is present. -/
theorem retrieve_chunk_not_found (hash : Bytes → String) (s : NodeState) (cid : String) :
    (getAssoc s.files (cid ++ ".chunk") = none →
      retrieve_chunk hash s cid = RetrieveResult.err ("Chunk not found")) ∧
    (∀ data, retrieve_chunk hash s cid = RetrieveResult.ok data →
      (getAssoc s.files (cid ++ ".chunk")).isSome = true) := by
  constructor
  · intro h
    simp [retrieve_chunk, h]
  · intro data h
    cases hf : getAssoc s.files (cid ++ ".chunk") with
    | none =>
      exfalso
      simp [retrieve_chunk, hf] at h
    | some d => rfl

/-- Witness for C6: an unknown identifier on a fresh node. -/
theorem retrieve_chunk_not_found_witness :
    getAssoc (freshNode ("n") 1).files (("x") ++ ".chunk") = none ∧
    retrieve_chunk (fun _ => ("")) (freshNode ("n") 1) ("x") =
      RetrieveResult.err ("Chunk not found") :=
  ⟨rfl, (retrieve_chunk_not_found (fun _ => ("")) (freshNode ("n") 1) ("x")).1 rfl⟩

/-- C8: `load_metadata` returns the parsed file when it exists; otherwise
it returns a fresh structure with the node's own id, an empty chunks
mapping and `total_stored = 0`, persisting it first — so after the first
load the metadata file exists. -/
theorem load_metadata_spec (node_id : String) :
    (∀ metadata, load_metadata node_id (some metadata) = (some metadata, metadata)) ∧
    load_metadata node_id none =
      (some { node_id := node_id, chunks := [], total_stored := 0 },
       { node_id := node_id, chunks := [], total_stored := 0 }) ∧
    ((load_metadata node_id none).1).isSome = true :=
  ⟨fun _ => rfl, rfl, rfl⟩

/-- C10: a `GET /chunk` with `id` present but empty is answered 400
"Missing chunk ID", indistinguishable from the missing-parameter case —
independently of the storage state and hash, so `retrieve_chunk` is
never consulted. -/
theorem chunkGet_empty_id (hash hash' : Bytes → String) (s s' : NodeState) :
    handleChunkGet hash s (some ("")) = HttpOutcome.sendError 400 ("Missing chunk ID") ∧
    handleChunkGet hash s (some ("")) = handleChunkGet hash' s' none :=
  ⟨rfl, rfl⟩

/-- C2: when the chunk file for `cid` exists, `retrieve_chunk`
verifies the recomputed digest against the stored checksum exactly when
a metadata record exists — mismatch yields "Chunk corrupted" and the
payload is not returned, match yields the payload, and a missing record
yields the payload unverified.  In particular, altering the chunk
file's bytes after a successful store (without touching the record) to
bytes with a different digest makes `retrieve_chunk` fail with
"Chunk corrupted" instead of returning the altered bytes. -/
theorem retrieve_chunk_integrity (hash : Bytes → String) :
    (∀ (s : NodeState) (cid : String) (data : Bytes) (record : ChunkRecord),
      getAssoc s.files (cid ++ ".chunk") = some data →
      getAssoc s.metadata.chunks cid = some record →
      (record.checksum ≠ hash data →
        retrieve_chunk hash s cid = RetrieveResult.err ("Chunk corrupted")) ∧
      (record.checksum = hash data →
        retrieve_chunk hash s cid = RetrieveResult.ok data)) ∧
    (∀ (s : NodeState) (cid : String) (data : Bytes),
      getAssoc s.files (cid ++ ".chunk") = some data →
      getAssoc s.metadata.chunks cid = none →
      retrieve_chunk hash s cid = RetrieveResult.ok data) ∧
    (∀ (now : Nat) (s : NodeState) (cid : String) (data : Bytes) (fm : FileMetadata)
      (s' : NodeState) (n : Nat) (data' : Bytes),
      store_chunk hash now s cid data fm = (s', StoreResult.ok n) →
      hash data' ≠ hash data →
      retrieve_chunk hash (alterFile s' (cid ++ ".chunk") data') cid =
        RetrieveResult.err ("Chunk corrupted")) := by
  refine ⟨?_, ?_, ?_⟩
  · intro s cid data record hf hm
    constructor
    · intro hne
      simp [retrieve_chunk, hf, hm, hne]
    · intro heq
      simp [retrieve_chunk, hf, hm, heq]
  · intro s cid data hf hm
    simp [retrieve_chunk, hf, hm]
  · intro now s cid data fm s' n data' h hne
    by_cases hc : (data.length : Int) > (get_storage_stats s).free_bytes
    · rw [store_chunk_of_too_big hash now s cid data fm hc] at h
      simp at h
    · rw [store_chunk_of_fits hash now s cid data fm hc] at h
      injection h with h1 h2
      subst h1
      simp [alterFile, retrieve_chunk, getAssoc_setAssoc_self, Ne.symm hne]

/-- Witness for C2: the length-as-string "digest" recorded for a
one-byte payload does not match the two altered bytes on disk, so the
retrieve reports corruption. -/
theorem retrieve_chunk_integrity_witness :
    ((⟨none, 1, 0, ("1")⟩ : ChunkRecord).checksum ≠
      (fun l : Bytes => toString l.length) [0, 1]) ∧
    retrieve_chunk (fun l : Bytes => toString l.length)
      ⟨[(("a.chunk"), [0, 1])], ⟨("n"), [(("a"), ⟨none, 1, 0, ("1")⟩)], 0⟩, 5⟩ ("a") =
      RetrieveResult.err ("Chunk corrupted") := by
  have hne : ((⟨none, 1, 0, ("1")⟩ : ChunkRecord).checksum ≠
      (fun l : Bytes => toString l.length) [0, 1]) := by decide
  have hf : getAssoc
      (⟨[(("a.chunk"), [0, 1])], ⟨("n"), [(("a"), ⟨none, 1, 0, ("1")⟩)], 0⟩, 5⟩ :
        NodeState).files (("a") ++ ".chunk") = some [0, 1] := by decide
  have hm : getAssoc
      (⟨[(("a.chunk"), [0, 1])], ⟨("n"), [(("a"), ⟨none, 1, 0, ("1")⟩)], 0⟩, 5⟩ :
        NodeState).metadata.chunks ("a") = some ⟨none, 1, 0, ("1")⟩ := by decide
  exact ⟨hne,
    ((retrieve_chunk_integrity (fun l : Bytes => toString l.length)).1
      _ ("a") [0, 1] _ hf hm).1 hne⟩

/-! ### Sequences of store calls -/

/-- One `store_chunk` call: its `time.time()` value, chunk id, payload
and file metadata. -/
abbrev StoreCall := Nat × String × Bytes × FileMetadata

def callCid (c : StoreCall) : String := c.2.1

def callData (c : StoreCall) : Bytes := c.2.2.1

/-- Run a sequence of `store_chunk` calls, threading the node state;
a failed call leaves the state unchanged, as in the source. -/
def storeAll (hash : Bytes → String) : NodeState → List StoreCall → NodeState
  | s, [] => s
  | s, c :: rest =>
    storeAll hash (store_chunk hash c.1 s (callCid c) (callData c) c.2.2.2).1 rest

/-- Total payload size of a sequence of store calls. -/
def callSizes (calls : List StoreCall) : Nat :=
  (calls.map (fun c => (callData c).length)).sum

/-- A single `store_chunk` call, successful or not, changes neither
`total_stored` nor `node_id` nor the allocation. -/
theorem store_chunk_frame (hash : Bytes → String) (now : Nat) (s : NodeState)
    (cid : String) (data : Bytes) (fm : FileMetadata) :
    (store_chunk hash now s cid data fm).1.metadata.total_stored =
        s.metadata.total_stored ∧
    (store_chunk hash now s cid data fm).1.metadata.node_id = s.metadata.node_id ∧
    (store_chunk hash now s cid data fm).1.allocated_bytes = s.allocated_bytes := by
  by_cases hc : (data.length : Int) > (get_storage_stats s).free_bytes
  · rw [store_chunk_of_too_big hash now s cid data fm hc]
    exact ⟨rfl, rfl, rfl⟩
  · rw [store_chunk_of_fits hash now s cid data fm hc]
    exact ⟨rfl, rfl, rfl⟩

/-- C9: no sequence of `store_chunk` calls (successful or failed) ever
modifies `total_stored` (or `node_id`, or the allocation), and
`get_storage_stats` never reads the metadata: it is a function of the
directory contents and the allocation alone. -/
theorem total_stored_frame (hash : Bytes → String) :
    (∀ (s : NodeState) (calls : List StoreCall),
      (storeAll hash s calls).metadata.total_stored = s.metadata.total_stored ∧
      (storeAll hash s calls).metadata.node_id = s.metadata.node_id ∧
      (storeAll hash s calls).allocated_bytes = s.allocated_bytes) ∧
    (∀ s₁ s₂ : NodeState, s₁.files = s₂.files →
      s₁.allocated_bytes = s₂.allocated_bytes →
      get_storage_stats s₁ = get_storage_stats s₂) := by
  constructor
  · intro s calls
    induction calls generalizing s with
    | nil => exact ⟨rfl, rfl, rfl⟩
    | cons c rest ih =>
      obtain ⟨ih1, ih2, ih3⟩ :=
        ih (store_chunk hash c.1 s (callCid c) (callData c) c.2.2.2).1
      obtain ⟨hf1, hf2, hf3⟩ :=
        store_chunk_frame hash c.1 s (callCid c) (callData c) c.2.2.2
      exact ⟨by rw [storeAll, ih1, hf1], by rw [storeAll, ih2, hf2],
        by rw [storeAll, ih3, hf3]⟩
  · intro s₁ s₂ hf ha
    simp [get_storage_stats, hf, ha]

/-- Witness for C9: two states sharing files and allocation but with
different metadata have equal stats, and a store on a node whose
`total_stored` is 5 leaves it at 5. -/
theorem total_stored_frame_witness :
    ((⟨[], ⟨("a"), [], 5⟩, 7⟩ : NodeState).files =
      (⟨[], ⟨("b"), [], 9⟩, 7⟩ : NodeState).files) ∧
    ((⟨[], ⟨("a"), [], 5⟩, 7⟩ : NodeState).allocated_bytes =
      (⟨[], ⟨("b"), [], 9⟩, 7⟩ : NodeState).allocated_bytes) ∧
    get_storage_stats ⟨[], ⟨("a"), [], 5⟩, 7⟩ =
      get_storage_stats ⟨[], ⟨("b"), [], 9⟩, 7⟩ ∧
    (storeAll (fun _ => ("h")) ⟨[], ⟨("a"), [], 5⟩, 7⟩
      [(0, ("c"), [0], ⟨none⟩)]).metadata.total_stored = 5 := by
  refine ⟨rfl, rfl, (total_stored_frame (fun _ => ("h"))).2 _ _ rfl rfl, ?_⟩
  exact ((total_stored_frame (fun _ => ("h"))).1 ⟨[], ⟨("a"), [], 5⟩, 7⟩
    [(0, ("c"), [0], ⟨none⟩)]).1

/-- C5: every state reachable from a freshly initialized node by
`store_chunk` calls (`retrieve_chunk` does not modify state) satisfies
the metadata/disk coherence invariant: each recorded chunk has a file
of the recorded size and checksum. -/
theorem reachable_chunk_invariant (hash : Bytes → String) (s : NodeState)
    (h : Reach hash s) : ChunkInvariant hash s := by
  induction h with
  | init node_id gb =>
    intro cid record hrec
    simp [freshNode, load_metadata, getAssoc] at hrec
  | store s now cid data fm hs ih =>
    by_cases hc : (data.length : Int) > (get_storage_stats s).free_bytes
    · rw [store_chunk_of_too_big hash now s cid data fm hc]
      exact ih
    · rw [store_chunk_of_fits hash now s cid data fm hc]
      intro cid₀ rec₀ hrec
      by_cases hcid : cid = cid₀
      · subst hcid
        rw [getAssoc_setAssoc_self] at hrec
        injection hrec with hrec
        subst hrec
        exact ⟨data, getAssoc_setAssoc_self _ _ _, rfl, rfl⟩
      · rw [getAssoc_setAssoc_ne _ _ hcid] at hrec
        obtain ⟨d, hd, hlen, hhash⟩ := ih cid₀ rec₀ hrec
        refine ⟨d, ?_, hlen, hhash⟩
        rw [getAssoc_setAssoc_ne]
        · exact hd
        · exact fun hcontra => hcid (chunkName_inj hcontra)

/-- Witness for C5: the invariant after one concrete store on a fresh
node. -/
theorem reachable_chunk_invariant_witness :
    ChunkInvariant (fun _ => ("h"))
      (store_chunk (fun _ => ("h")) 0 (freshNode ("n") 1) ("a") [0, 1] ⟨none⟩).1 :=
  reachable_chunk_invariant (fun _ => ("h")) _
    (Reach.store (freshNode ("n") 1) 0 ("a") [0, 1] ⟨none⟩ (Reach.init ("n") 1))

/-! ### Storing a batch of fresh chunks -/

theorem usedBytesOf_chunkFiles (calls : List StoreCall) :
    usedBytesOf (calls.map (fun c => (callCid c ++ ".chunk", callData c))) =
      callSizes calls := by
  induction calls with
  | nil => simp [usedBytesOf, chunkFilesOf, callSizes]
  | cons c rest ih =>
    simp only [usedBytesOf, chunkFilesOf, callSizes, List.map_cons, List.filter_cons,
      strEndsWith_chunkName, if_true, List.sum_cons] at ih ⊢
    omega

theorem chunkCountOf_chunkFiles (calls : List StoreCall) :
    chunkCountOf (calls.map (fun c => (callCid c ++ ".chunk", callData c))) =
      calls.length := by
  induction calls with
  | nil => simp [chunkCountOf, chunkFilesOf]
  | cons c rest ih =>
    simp only [chunkCountOf, chunkFilesOf, List.map_cons, List.filter_cons,
      strEndsWith_chunkName, if_true, List.length_cons] at ih ⊢
    omega

/-- Storing a batch of chunks with pairwise-distinct ids, none of which
is already on disk, within the allocation: each admission check passes
and the files end up appended to the directory, with the allocation
untouched. -/
theorem storeAll_fresh (hash : Bytes → String) (calls : List StoreCall) :
    ∀ s : NodeState, ((calls.map callCid).Nodup) →
    (∀ c ∈ calls, getAssoc s.files (callCid c ++ ".chunk") = none) →
    usedBytesOf s.files + callSizes calls ≤ s.allocated_bytes →
    (storeAll hash s calls).files =
      s.files ++ calls.map (fun c => (callCid c ++ ".chunk", callData c)) ∧
    (storeAll hash s calls).allocated_bytes = s.allocated_bytes := by
  induction calls with
  | nil =>
    intro s _ _ _
    simp [storeAll]
  | cons c rest ih =>
    intro s hnodup habsent hbound
    have hboundc : usedBytesOf s.files + ((callData c).length + callSizes rest) ≤
        s.allocated_bytes := by
      simpa [callSizes] using hbound
    have hfree : ¬ ((callData c).length : Int) > (get_storage_stats s).free_bytes := by
      rw [get_storage_stats_eq]
      simp only [not_lt]
      omega
    have hstore := store_chunk_of_fits hash c.1 s (callCid c) (callData c) c.2.2.2 hfree
    have hfiles' : (store_chunk hash c.1 s (callCid c) (callData c) c.2.2.2).1.files =
        s.files ++ [(callCid c ++ ".chunk", callData c)] := by
      rw [hstore]
      exact setAssoc_eq_append _ _ _ (habsent c (List.mem_cons_self c rest))
    have halloc' : (store_chunk hash c.1 s (callCid c) (callData c) c.2.2.2).1.allocated_bytes =
        s.allocated_bytes := by
      rw [hstore]
    have hhead : callCid c ∉ rest.map callCid := (List.nodup_cons.mp hnodup).1
    have habsent' : ∀ c' ∈ rest,
        getAssoc (store_chunk hash c.1 s (callCid c) (callData c) c.2.2.2).1.files
          (callCid c' ++ ".chunk") = none := by
      intro c' hc'
      rw [hfiles',
        getAssoc_append_of_none _ _ _ (habsent c' (List.mem_cons_of_mem _ hc'))]
      have hne : callCid c ++ ".chunk" ≠ callCid c' ++ ".chunk" := by
        intro hcontra
        have hmem : callCid c ∈ rest.map callCid := by
          rw [chunkName_inj hcontra]
          exact List.mem_map_of_mem callCid hc'
        exact hhead hmem
      simp [getAssoc, hne]
    have hused' : usedBytesOf (store_chunk hash c.1 s (callCid c) (callData c) c.2.2.2).1.files +
        callSizes rest ≤
        (store_chunk hash c.1 s (callCid c) (callData c) c.2.2.2).1.allocated_bytes := by
      rw [hfiles', halloc', usedBytesOf_append]
      have hone : usedBytesOf [(callCid c ++ ".chunk", callData c)] =
          (callData c).length := by
        simp [usedBytesOf, chunkFilesOf, List.filter_cons, strEndsWith_chunkName]
      rw [hone]
      omega
    obtain ⟨ih1, ih2⟩ := ih (store_chunk hash c.1 s (callCid c) (callData c) c.2.2.2).1
      (List.nodup_cons.mp hnodup).2 habsent' hused'
    constructor
    · rw [storeAll, ih1, hfiles']
      simp
    · rw [storeAll, ih2, halloc']

/-- C4: `get_storage_stats` reports `used_bytes` as the sum of the byte
lengths of the `.chunk` files, `chunk_count` as their number,
`free_bytes` as `allocated_bytes - used_bytes` over the integers (no
clamping: a concrete over-allocated state reports `-1`), and
`usage_percent` as `used_bytes / allocated_bytes * 100`; and after
storing N chunks of known sizes from an empty directory, `used_bytes`
is exactly the sum of the sizes and `chunk_count` exactly N. -/
theorem get_storage_stats_correct :
    (∀ s : NodeState,
      (get_storage_stats s).used_bytes = usedBytesOf s.files ∧
      (get_storage_stats s).chunk_count = chunkCountOf s.files ∧
      (get_storage_stats s).free_bytes =
        (s.allocated_bytes : Int) - (usedBytesOf s.files : Int) ∧
      (0 < s.allocated_bytes →
        (get_storage_stats s).usage_percent =
          ((usedBytesOf s.files : ℚ) / (s.allocated_bytes : ℚ)) * 100)) ∧
    ((get_storage_stats ⟨[(("x.chunk"), [0, 0])], ⟨("n"), [], 0⟩, 1⟩).free_bytes = -1) ∧
    (∀ (hash : Bytes → String) (calls : List StoreCall) (node_id : String) (gb : Nat),
      ((calls.map callCid).Nodup) →
      callSizes calls ≤ gb * 1024 * 1024 * 1024 →
      (get_storage_stats (storeAll hash (freshNode node_id gb) calls)).used_bytes =
        callSizes calls ∧
      (get_storage_stats (storeAll hash (freshNode node_id gb) calls)).chunk_count =
        calls.length) := by
    refine ⟨?_, by decide, ?_⟩
    · intro s
      rw [get_storage_stats_eq]
      exact ⟨rfl, rfl, rfl, fun _ => rfl⟩
    · intro hash calls node_id gb hnodup hbound
      have hempty : usedBytesOf (freshNode node_id gb).files = 0 := by
        simp [freshNode, usedBytesOf, chunkFilesOf]
      obtain ⟨h1, -⟩ := storeAll_fresh hash calls (freshNode node_id gb) hnodup
        (fun c _ => rfl) (by rw [hempty]; simpa [freshNode] using hbound)
      rw [get_storage_stats_eq]
      dsimp only
      rw [h1]
      constructor
      · simp only [freshNode]
        rw [List.nil_append, usedBytesOf_chunkFiles]
      · simp only [freshNode]
        rw [List.nil_append, chunkCountOf_chunkFiles]

/-- Witness for C4: two chunks of 1 and 2 bytes on a fresh 1 GB node
give `used_bytes = 3` and `chunk_count = 2`. -/
theorem get_storage_stats_correct_witness :
    ((([(0, ("a"), [0], (⟨none⟩ : FileMetadata)),
        (0, ("b"), [0, 0], ⟨none⟩)] : List StoreCall).map callCid).Nodup) ∧
    callSizes [(0, ("a"), [0], (⟨none⟩ : FileMetadata)), (0, ("b"), [0, 0], ⟨none⟩)] ≤
      1 * 1024 * 1024 * 1024 ∧
    (get_storage_stats (storeAll (fun _ => ("h")) (freshNode ("n") 1)
      [(0, ("a"), [0], ⟨none⟩), (0, ("b"), [0, 0], ⟨none⟩)])).used_bytes = 3 ∧
    (get_storage_stats (storeAll (fun _ => ("h")) (freshNode ("n") 1)
      [(0, ("a"), [0], ⟨none⟩), (0, ("b"), [0, 0], ⟨none⟩)])).chunk_count = 2 := by
  have h1 : (([(0, ("a"), [0], (⟨none⟩ : FileMetadata)),
      (0, ("b"), [0, 0], ⟨none⟩)] : List StoreCall).map callCid).Nodup := by decide
  have h2 : callSizes [(0, ("a"), [0], (⟨none⟩ : FileMetadata)),
      (0, ("b"), [0, 0], ⟨none⟩)] ≤ 1 * 1024 * 1024 * 1024 := by decide
  have h3 : callSizes [(0, ("a"), [0], (⟨none⟩ : FileMetadata)),
      (0, ("b"), [0, 0], ⟨none⟩)] = 3 := by decide
  have happ := get_storage_stats_correct.2.2 (fun _ => ("h")) _ ("n") 1 h1 h2
  exact ⟨h1, h2, h3 ▸ happ.1, happ.2⟩

/-- C7 counterexample: with the chunk subdirectory missing, the stats
call raises (`os.listdir` fails) instead of returning `used_bytes = 0`. -/
theorem stats_missing_dir_raises :
    get_storage_stats_fs none 1073741824 = Except.error ("FileNotFoundError") ∧
    (get_storage_stats_fs none 1073741824).isOk = false :=
  ⟨rfl, rfl⟩

/-- C7 (amended): `get_storage_stats` has no error conditions as long as
the chunk subdirectory exists — an empty directory yields
`used_bytes = 0` — but a missing chunk subdirectory makes `os.listdir`
raise `FileNotFoundError` instead of returning `used_bytes = 0`. -/
theorem stats_total_when_dir_exists :
    (∀ (files : AssocL Bytes) (alloc : Nat),
      ∃ st, get_storage_stats_fs (some files) alloc = Except.ok st) ∧
    (∀ alloc : Nat, get_storage_stats_fs (some []) alloc =
      Except.ok ⟨0, alloc, (alloc : Int), 0, 0⟩) ∧
    (∀ alloc : Nat, get_storage_stats_fs none alloc =
      Except.error ("FileNotFoundError")) := by
  refine ⟨fun files alloc => ⟨_, rfl⟩, fun alloc => ?_, fun alloc => rfl⟩
  simp [get_storage_stats_fs, get_storage_stats_eq, usedBytesOf, chunkCountOf,
    chunkFilesOf]

end PJAS
